import Mathlib

/-!
Shallow embedding of the core of the `latest` crate: the version comparator
(`is_newer` in src/lib.rs), the TTL cache (src/cache.rs), the source adapter
model and the lookup orchestrator (src/main.rs), together with proofs of the
specified properties.
-/

namespace Latest

/-! The cache directory of src/cache.rs is modelled as an association list
from file name to the persisted entry; serde's JSON serialisation
round-trips, so a file holds exactly the entry it was written with. The
wall clock is passed explicitly everywhere as a u64 second count. -/

/-- Upper bound of Rust's u64 type, two to the 64. -/
def U64MOD : Nat := 18446744073709551616

/-- Split a character list at every character satisfying the predicate,
keeping empty pieces, as Rust's str split with a char-predicate pattern does:
splitting the empty string yields one empty piece, and adjacent separators
yield empty pieces between them. -/
def splitOnPred (p : Char → Bool) : List Char → List (List Char)
  | [] => [[]]
  | c :: cs =>
    if p c then [] :: splitOnPred p cs
    else
      match splitOnPred p cs with
      | [] => [[c]]
      | t :: ts => (c :: t) :: ts

/-- Numeric value of a digit-character list, most significant first. -/
def digitsVal (t : List Char) : Nat :=
  t.foldl (fun acc c => acc * 10 + (c.toNat - 48)) 0

/-- Models Rust s.parse with target u64 on the tokens produced by the digit
split: it succeeds exactly on non-empty all-ASCII-digit strings whose value
fits in a u64, and fails on the empty token and on overflow. (Rust's general
u64 parsing also accepts a leading plus sign, which cannot occur in a token
of the split below, every token being a run of ASCII digits.) -/
def parseU64 (t : List Char) : Option Nat :=
  if t.isEmpty then none
  else if t.all Char.isDigit then
    if digitsVal t < U64MOD then some (digitsVal t) else none
  else none

/-- The parse closure of is_newer in src/lib.rs: split the string on every
run of non-ASCII-digit characters and keep the tokens that parse as u64. -/
def versionComponents (v : String) : List Nat :=
  (splitOnPred (fun c => !c.isDigit) v.data).filterMap parseU64

/-- Comparison of two component sequences, exactly the body of is_newer in
src/lib.rs: some index i below the longer length has the candidate component
(missing treated as 0) strictly above the installed one, while at every
earlier index the two get results agree as options. -/
def componentsNewer (a b : List Nat) : Bool :=
  (List.range (max a.length b.length)).any fun i =>
    decide (a.getD i 0 < b.getD i 0) && (List.range i).all fun j => a[j]? == b[j]?

/-- is_newer from src/lib.rs: is the candidate version string strictly newer
than the installed one. -/
def is_newer (installed latest : String) : Bool :=
  componentsNewer (versionComponents installed) (versionComponents latest)

/-- The comparison described by the specification's sentence for claim C1,
which treats a missing component as 0 in the earlier-index equality test as
well as in the strict comparison; the code instead compares the earlier
indices as options, so a missing component differs from a present 0. -/
def componentsNewerClaimed (a b : List Nat) : Bool :=
  (List.range (max a.length b.length)).any fun i =>
    decide (a.getD i 0 < b.getD i 0) && (List.range i).all fun j => a.getD j 0 == b.getD j 0

/-- The claimed comparator of C1 on strings, sharing the component parse with
the code. -/
def isNewerClaimed (installed latest : String) : Bool :=
  componentsNewerClaimed (versionComponents installed) (versionComponents latest)

/-- Propositional form of componentsNewer. -/
def NewerP (a b : List Nat) : Prop :=
  ∃ i, i < max a.length b.length ∧ a.getD i 0 < b.getD i 0 ∧ ∀ j, j < i → a[j]? = b[j]?

/-- A cache entry as persisted by src/cache.rs: a version string and a u64
unix timestamp in seconds. -/
structure CacheEntry where
  version : String
  timestamp : Nat
deriving Repr, DecidableEq

/-- DEFAULT_TTL_SECS of src/cache.rs, one hour. -/
def DEFAULT_TTL_SECS : Nat := 3600

/-- The persisted file store of the cache directory. -/
abbrev CacheState := List (String × CacheEntry)

/-- Reading a file of the store. -/
def storeRead (st : CacheState) (path : String) : Option CacheEntry :=
  (st.find? fun f => f.1 == path).map (fun f => f.2)

/-- Deleting a file of the store, fs remove_file in src/cache.rs. -/
def storeRemove (st : CacheState) (path : String) : CacheState :=
  st.filter fun f => !(f.1 == path)

/-- Overwriting a file of the store, fs write in src/cache.rs. -/
def storeWrite (st : CacheState) (path : String) (e : CacheEntry) : CacheState :=
  (path, e) :: storeRemove st path

/-- sanitize from src/cache.rs: every character that is not alphanumeric,
a dash or an underscore becomes an underscore. (Rust's char is_alphanumeric
covers the full Unicode Alphabetic and Number classes; the model uses the
ASCII fragment, on which the two coincide, and every input appearing in the
claims is ASCII.) -/
def sanitize (name : String) : String :=
  String.mk (name.data.map fun c =>
    if c.isAlphanum || c == '-' || c == '_' then c else '_')

/-- The cache file name used by both get and set in src/cache.rs. -/
def cacheKey (source package : String) : String :=
  source ++ "-" ++ sanitize package ++ ".json"

/-- Wrapping subtraction on u64 values, the release-mode semantics of the
expression now - entry.timestamp in get of src/cache.rs. -/
def u64Sub (a b : Nat) : Nat :=
  (a % U64MOD + (U64MOD - b % U64MOD)) % U64MOD

/-- get from src/cache.rs: read the entry at the key derived from source and
package; a fresh entry yields its version, an entry at least
DEFAULT_TTL_SECS old is deleted and yields nothing. Returns the value
together with the resulting store. -/
def cache_get (st : CacheState) (now : Nat) (source package : String) :
    Option String × CacheState :=
  match storeRead st (cacheKey source package) with
  | none => (none, st)
  | some entry =>
    if u64Sub now entry.timestamp < DEFAULT_TTL_SECS then (some entry.version, st)
    else (none, storeRemove st (cacheKey source package))

/-- set from src/cache.rs: persist the version with the current time under
the key derived from source and package. -/
def cache_set (st : CacheState) (now : Nat) (source package version : String) :
    CacheState :=
  storeWrite st (cacheKey source package) ⟨version, now⟩

/-- Rust char is_control: the Unicode control class, code points below 0x20
together with the range 0x7f to 0x9f. -/
def isControlChar (c : Char) : Bool :=
  c.toNat < 32 || (127 ≤ c.toNat && c.toNat ≤ 159)

/-- The character loop of sanitize_output in src/main.rs. The inner while
loop that skips a CSI sequence up to and including its final byte (the
first ASCII letter) is rendered as the inCSI state of one recursion: an ESC
followed by an opening bracket enters that state, a bare ESC is dropped,
and outside a CSI sequence every control character except newline is
dropped. -/
def sanitizeOutputGo (inCSI : Bool) : List Char → List Char
  | [] => []
  | c :: rest =>
    if inCSI then
      if c.isAlpha then sanitizeOutputGo false rest
      else sanitizeOutputGo true rest
    else if c = '\x1b' then
      match rest with
      | '[' :: rest2 => sanitizeOutputGo true rest2
      | other => sanitizeOutputGo false other
    else if !(isControlChar c) || c = '\n' then c :: sanitizeOutputGo false rest
    else sanitizeOutputGo false rest

/-- sanitize_output from src/main.rs: strip CSI escape sequences and all
control characters except newline. -/
def sanitize_output (s : String) : String :=
  String.mk (sanitizeOutputGo false s.data)

/-- The Ecosystem enumeration of src/sources/mod.rs. -/
inductive Ecosystem
  | system
  | python
  | npm
  | cargo
  | go
  | ruby
  | beam
  | dart
deriving Repr, DecidableEq

/-- A Source trait object of src/sources/mod.rs: a name, an ecosystem, a
locality flag and amount of query capability get_version. -/
structure Source where
  name : String
  ecosystem : Ecosystem
  isLocal : Bool
  getVersion : String → Option String

/-- The Status enumeration of src/main.rs. -/
inductive Status
  | upToDate
  | outdated
  | notInstalled
  | notFound
deriving Repr, DecidableEq

/-- VersionInfo of src/main.rs; the field named local there is called
localFlag here. -/
structure VersionInfo where
  version : String
  source : String
  localFlag : Bool
deriving Repr, DecidableEq

/-- VersionInfo new of src/main.rs: the version string is passed through
sanitize_output. -/
def VersionInfo.new (version : String) (s : Source) : VersionInfo :=
  ⟨sanitize_output version, s.name, s.isLocal⟩

/-- PackageResult of src/main.rs. -/
structure PackageResult where
  package : String
  status : Status
  installed : Option VersionInfo
  latest : Option VersionInfo
  available : List VersionInfo
  install_commands : List String
  also_found_in : List String
deriving Repr, DecidableEq

/-- PackageResult not_found of src/main.rs. -/
def PackageResult.not_found (package : String) : PackageResult :=
  ⟨package, .notFound, none, none, [], [], []⟩

/-- PackageResult up_to_date of src/main.rs: the found info repeated as both
installed and latest. -/
def PackageResult.up_to_date (package : String) (info : VersionInfo)
    (also_found_in : List String) : PackageResult :=
  ⟨package, .upToDate, some info, some info, [], [], also_found_in⟩

/-- PackageResult outdated of src/main.rs. -/
def PackageResult.outdated (package : String) (installed latest : VersionInfo)
    (also_found_in : List String) : PackageResult :=
  ⟨package, .outdated, some installed, some latest, [], [], also_found_in⟩

/-- PackageResult not_installed of src/main.rs: latest is the first
available entry. Its install_commands field is produced by
get_install_commands, which probes the invoking directory for project
files; that environment probe is outside the modelled core and the field is
left empty here (no claim mentions it). -/
def PackageResult.not_installed (package : String) (available : List VersionInfo) :
    PackageResult :=
  ⟨package, .notInstalled, none, available.head?, available, [], []⟩

/-- PackageResult all_sources of src/main.rs. -/
def PackageResult.all_sources (package : String) (available : List VersionInfo) :
    PackageResult :=
  ⟨package, if available.isEmpty then .notFound else .upToDate, none, none,
    available, [], []⟩

/-- query_source of src/main.rs with the cache store passed explicitly: a
local source is queried directly and the cache is untouched; otherwise with
use_cache the cache is consulted first (which may delete an expired entry)
and a fresh successful result is written through; with use_cache off the
source is queried directly. -/
def query_source (s : Source) (package : String) (use_cache : Bool)
    (now : Nat) (st : CacheState) : Option String × CacheState :=
  if s.isLocal then (s.getVersion package, st)
  else if use_cache then
    match cache_get st now s.name package with
    | (some cached, st') => (some cached, st')
    | (none, st') =>
      match s.getVersion package with
      | none => (none, st')
      | some version => (some version, cache_set st' now s.name package version)
  else (s.getVersion package, st)

/-- The fan-out of lookup in src/main.rs: query each source in order through
query_source, collecting every success paired with its source; rayon's
collect preserves input order, and the shared cache directory is modelled by
threading the store left to right. -/
def queryAll (srcs : List Source) (package : String) (use_cache : Bool)
    (now : Nat) (st : CacheState) : List (String × Source) × CacheState :=
  match srcs with
  | [] => ([], st)
  | s :: rest =>
    let q := query_source s package use_cache now st
    let qs := queryAll rest package use_cache now q.2
    match q.1 with
    | some v => ((v, s) :: qs.1, qs.2)
    | none => (qs.1, qs.2)

/-- One step of the max_by reduction of lookup_default in src/main.rs: the
comparator orders acc below y exactly when y's version is newer, so the
reduction keeps the accumulator unless the next candidate is strictly
newer; ties keep the earlier element. -/
def newerStep (acc y : String × Source) : String × Source :=
  if is_newer acc.1 y.1 then y else acc

/-- The max_by reduction of lookup_default in src/main.rs, a left fold of
newerStep over the candidate list. -/
def maxByNewer (l : List (String × Source)) : Option (String × Source) :=
  match l with
  | [] => none
  | x :: xs => some (xs.foldl newerStep x)

/-- The installed binding of lookup_default in src/main.rs: the first local
source answering (find_map_any races the local sources; the model takes the
first in list order). get_version is called directly for local sources,
matching the code, which bypasses query_source there. -/
def installedResult (package : String) (srcs : List Source) :
    Option (String × Source) :=
  (srcs.filter fun s => s.isLocal).findSome? fun s =>
    (s.getVersion package).map fun v => (v, s)

/-- The registry_versions binding of lookup_default in src/main.rs: every
non-local source's successful answer, in source order. -/
def registryResults (package : String) (srcs : List Source) (use_cache : Bool)
    (now : Nat) (st : CacheState) : List (String × Source) :=
  (queryAll (srcs.filter fun s => !s.isLocal) package use_cache now st).1

/-- lookup_default of src/main.rs. -/
def lookup_default (package : String) (srcs : List Source) (use_cache : Bool)
    (now : Nat) (st : CacheState) : PackageResult × CacheState :=
  let installed := installedResult package srcs
  let reg := queryAll (srcs.filter fun s => !s.isLocal) package use_cache now st
  match installed with
  | some (inst_version, inst_source) =>
    let inst_ecosystem := inst_source.ecosystem
    let newer := maxByNewer (((reg.1.filter fun p =>
      p.2.ecosystem == inst_ecosystem).filter fun p => is_newer inst_version p.1))
    let also_found_in := (reg.1.filter fun p =>
      !(p.2.ecosystem == inst_ecosystem)).map fun p => p.2.name
    let installed_info := VersionInfo.new inst_version inst_source
    match newer with
    | some (v, s) =>
      (PackageResult.outdated package installed_info (VersionInfo.new v s)
        also_found_in, reg.2)
    | none => (PackageResult.up_to_date package installed_info also_found_in, reg.2)
  | none =>
    if reg.1.isEmpty then (PackageResult.not_found package, reg.2)
    else
      (PackageResult.not_installed package
        (reg.1.map fun p => VersionInfo.new p.1 p.2), reg.2)

/-- The LookupMode enumeration of src/main.rs. -/
inductive LookupMode
  | all
  | explicitMode
  | defaultMode
deriving Repr, DecidableEq

/-- The Explicit arm of lookup in src/main.rs: the first source answering
wins (find_map_any races; the model takes the first in list order),
threading the cache store through the attempts. -/
def findFirstQuery (srcs : List Source) (package : String) (use_cache : Bool)
    (now : Nat) (st : CacheState) : Option VersionInfo × CacheState :=
  match srcs with
  | [] => (none, st)
  | s :: rest =>
    let q := query_source s package use_cache now st
    match q.1 with
    | some v => (some (VersionInfo.new v s), q.2)
    | none => findFirstQuery rest package use_cache now q.2

/-- lookup of src/main.rs: dispatch on the mode. -/
def lookup (package : String) (srcs : List Source) (mode : LookupMode)
    (use_cache : Bool) (now : Nat) (st : CacheState) : PackageResult × CacheState :=
  match mode with
  | .all =>
    let r := queryAll srcs package use_cache now st
    (PackageResult.all_sources package (r.1.map fun p => VersionInfo.new p.1 p.2), r.2)
  | .explicitMode =>
    let r := findFirstQuery srcs package use_cache now st
    match r.1 with
    | some info => (PackageResult.up_to_date package info [], r.2)
    | none => (PackageResult.not_found package, r.2)
  | .defaultMode => lookup_default package srcs use_cache now st

/-- The also_found_in binding of lookup_default in src/main.rs: names of the
registry sources of a different ecosystem than the installed one. -/
def alsoFoundInOf (package : String) (srcs : List Source) (use_cache : Bool)
    (now : Nat) (st : CacheState) (eco : Ecosystem) : List String :=
  ((registryResults package srcs use_cache now st).filter fun p =>
    !(p.2.ecosystem == eco)).map fun p => p.2.name

/-- The candidate list fed to max_by in lookup_default of src/main.rs: the
registry results of the installed ecosystem whose version is strictly newer
than the installed one. -/
def sameEcoNewer (package : String) (srcs : List Source) (use_cache : Bool)
    (now : Nat) (st : CacheState) (v : String) (eco : Ecosystem) :
    List (String × Source) :=
  ((registryResults package srcs use_cache now st).filter fun p =>
    p.2.ecosystem == eco).filter fun p => is_newer v p.1

/-- The populated-fields footprint of a PackageResult that claim C3 speaks
about: whether installed is present, whether latest is present, and whether
available is empty. -/
def fieldFootprint (r : PackageResult) : Bool × Bool × Bool :=
  (r.installed.isSome, r.latest.isSome, r.available.isEmpty)

/-- A local system source answering every query with the given version,
used by the concrete scenarios. -/
def localSys (v : String) : Source :=
  ⟨"path", Ecosystem.system, true, fun _ => some v⟩

/-- A non-local system registry source (brew-like) answering every query
with the given version, used by the concrete scenarios. -/
def regSys (v : String) : Source :=
  ⟨"brew", Ecosystem.system, false, fun _ => some v⟩

/-- A non-local npm registry source answering every query with the given
version, used by the concrete scenarios. -/
def regNpm (v : String) : Source :=
  ⟨"npm", Ecosystem.npm, false, fun _ => some v⟩

theorem componentsNewer_iff (a b : List Nat) :
    componentsNewer a b = true ↔ NewerP a b := by
  unfold componentsNewer NewerP
  rw [List.any_eq_true]
  constructor
  · rintro ⟨i, hi, hcond⟩
    rw [List.mem_range] at hi
    rw [Bool.and_eq_true, decide_eq_true_eq, List.all_eq_true] at hcond
    refine ⟨i, hi, hcond.1, fun j hj => ?_⟩
    have := hcond.2 j (List.mem_range.mpr hj)
    exact beq_iff_eq.mp this
  · rintro ⟨i, hi, hlt, hpre⟩
    refine ⟨i, List.mem_range.mpr hi, ?_⟩
    rw [Bool.and_eq_true, decide_eq_true_eq, List.all_eq_true]
    exact ⟨hlt, fun j hj => beq_iff_eq.mpr (hpre j (List.mem_range.mp hj))⟩

theorem getD_eq_of_get?_eq {a b : List Nat} {j : Nat} (h : a[j]? = b[j]?) :
    a.getD j 0 = b.getD j 0 := by
  simp [List.getD, h]

/-- A witness index of NewerP has distinct option components, hence strictly
smaller than the candidate's length. -/
theorem newerP_witness_lt_length {a b : List Nat} {i : Nat}
    (hlt : a.getD i 0 < b.getD i 0) : i < b.length := by
  by_contra hge
  have hnone : b[i]? = none := List.getElem?_eq_none (by omega)
  have : b.getD i 0 = 0 := by simp [List.getD, hnone]
  omega

/-- is_newer is irreflexive at the component level. -/
theorem componentsNewer_irrefl (a : List Nat) : componentsNewer a a = false := by
  by_contra h
  rw [Bool.not_eq_false, componentsNewer_iff] at h
  obtain ⟨i, _, hlt, _⟩ := h
  omega

/-- is_newer is asymmetric at the component level. -/
theorem componentsNewer_asymm {a b : List Nat}
    (hab : componentsNewer a b = true) : componentsNewer b a = false := by
  rw [componentsNewer_iff] at hab
  by_contra hba
  rw [Bool.not_eq_false, componentsNewer_iff] at hba
  obtain ⟨i, _, hi2, hi3⟩ := hab
  obtain ⟨k, _, hk2, hk3⟩ := hba
  rcases Nat.lt_trichotomy i k with hik | hik | hik
  · have := getD_eq_of_get?_eq (hk3 i hik)
    omega
  · subst hik; omega
  · have := getD_eq_of_get?_eq (hi3 k hik)
    omega

/-- is_newer is transitive at the component level. -/
theorem componentsNewer_trans {a b c : List Nat}
    (hab : componentsNewer a b = true) (hbc : componentsNewer b c = true) :
    componentsNewer a c = true := by
  rw [componentsNewer_iff] at hab hbc ⊢
  obtain ⟨i, _, hi2, hi3⟩ := hab
  obtain ⟨k, _, hk2, hk3⟩ := hbc
  rcases Nat.lt_trichotomy i k with hik | hik | hik
  · -- the first difference of a and b comes first, and b agrees with c there
    have hv : b.getD i 0 = c.getD i 0 := getD_eq_of_get?_eq (hk3 i hik)
    have hlen : i < c.length := newerP_witness_lt_length (a := a) (by omega)
    refine ⟨i, by omega, by omega, fun j hj => ?_⟩
    exact (hi3 j hj).trans (hk3 j (by omega))
  · subst hik
    have hlen : i < c.length := newerP_witness_lt_length (a := b) hk2
    exact ⟨i, by omega, by omega, fun j hj => (hi3 j hj).trans (hk3 j hj)⟩
  · -- the first difference of b and c comes first, and a agrees with b there
    have hv : a.getD k 0 = b.getD k 0 := getD_eq_of_get?_eq (hi3 k hik)
    have hlen : k < c.length := newerP_witness_lt_length (a := b) hk2
    refine ⟨k, by omega, by omega, fun j hj => ?_⟩
    exact (hi3 j (by omega)).trans (hk3 j hj)

theorem is_newer_irrefl (v : String) : is_newer v v = false :=
  componentsNewer_irrefl _

theorem is_newer_asymm {a b : String} (h : is_newer a b = true) :
    is_newer b a = false :=
  componentsNewer_asymm h

theorem is_newer_trans {a b c : String} (hab : is_newer a b = true)
    (hbc : is_newer b c = true) : is_newer a c = true :=
  componentsNewer_trans hab hbc

theorem storeRead_write (st : CacheState) (p : String) (e : CacheEntry) :
    storeRead (storeWrite st p e) p = some e := by
  unfold storeRead storeWrite
  rw [List.find?_cons_of_pos _ (by simp)]
  rfl

theorem storeRead_remove (st : CacheState) (p : String) :
    storeRead (storeRemove st p) p = none := by
  unfold storeRead storeRemove
  rw [Option.map_eq_none']
  rw [List.find?_eq_none]
  intro x hx
  rw [List.mem_filter] at hx
  simpa using hx.2

theorem newerStep_cases (acc y : String × Source) :
    newerStep acc y = y ∨ newerStep acc y = acc := by
  unfold newerStep
  split
  · exact Or.inl rfl
  · exact Or.inr rfl

/-- The max_by fold only ever moves from the accumulator to a strictly
newer element. -/
theorem foldl_newerStep_chain (xs : List (String × Source)) (x : String × Source) :
    xs.foldl newerStep x = x ∨ is_newer x.1 (xs.foldl newerStep x).1 = true := by
  induction xs generalizing x with
  | nil => exact Or.inl rfl
  | cons y ys ih =>
    simp only [List.foldl_cons]
    by_cases h : is_newer x.1 y.1 = true
    · have hs : newerStep x y = y := by simp [newerStep, h]
      rw [hs]
      rcases ih y with h1 | h1
      · rw [h1]
        exact Or.inr h
      · exact Or.inr (is_newer_trans h h1)
    · have hs : newerStep x y = x := by simp [newerStep, h]
      rw [hs]
      exact ih x

/-- The max_by fold returns an element of the candidate list. -/
theorem foldl_newerStep_mem (xs : List (String × Source)) (x : String × Source) :
    xs.foldl newerStep x ∈ x :: xs := by
  induction xs generalizing x with
  | nil => simp
  | cons y ys ih =>
    simp only [List.foldl_cons]
    rcases newerStep_cases x y with h | h <;> rw [h]
    · have := ih y
      simp only [List.mem_cons] at this ⊢
      tauto
    · have := ih x
      simp only [List.mem_cons] at this ⊢
      tauto

/-- No element of the candidate list is strictly newer than the max_by
fold's result. -/
theorem foldl_newerStep_max (xs : List (String × Source)) (x z : String × Source)
    (hz : z ∈ x :: xs) : is_newer (xs.foldl newerStep x).1 z.1 = false := by
  induction xs generalizing x with
  | nil =>
    simp only [List.mem_cons, List.not_mem_nil, or_false] at hz
    subst hz
    exact is_newer_irrefl _
  | cons y ys ih =>
    simp only [List.foldl_cons]
    by_cases h : is_newer x.1 y.1 = true
    · have hs : newerStep x y = y := by simp [newerStep, h]
      rw [hs]
      rcases List.mem_cons.mp hz with hzx | hz2
      · subst hzx
        by_contra hc
        rw [Bool.not_eq_false] at hc
        have h2 := is_newer_asymm h
        rcases foldl_newerStep_chain ys y with h1 | h1
        · rw [h1] at hc
          simp [h2] at hc
        · have h3 := is_newer_trans h1 hc
          simp [h2] at h3
      · exact ih y hz2
    · have hs : newerStep x y = x := by simp [newerStep, h]
      rw [hs]
      rcases List.mem_cons.mp hz with hzx | hz2
      · subst hzx
        exact ih z (List.mem_cons_self _ _)
      · rcases List.mem_cons.mp hz2 with hzy | hz3
        · subst hzy
          by_contra hc
          rw [Bool.not_eq_false] at hc
          rcases foldl_newerStep_chain ys x with h1 | h1
          · rw [h1] at hc
            exact absurd hc h
          · exact absurd (is_newer_trans h1 hc) h
        · exact ih x (List.mem_cons_of_mem _ hz3)

/-- maxByNewer returns an element of its input list that no input element
strictly improves. -/
theorem maxByNewer_spec {l : List (String × Source)} {m : String × Source}
    (h : maxByNewer l = some m) :
    m ∈ l ∧ ∀ z ∈ l, is_newer m.1 z.1 = false := by
  cases l with
  | nil => simp [maxByNewer] at h
  | cons x xs =>
    unfold maxByNewer at h
    injection h with h
    subst h
    exact ⟨foldl_newerStep_mem xs x, fun z hz => foldl_newerStep_max xs x z hz⟩

theorem maxByNewer_eq_none {l : List (String × Source)} :
    maxByNewer l = none ↔ l = [] := by
  cases l <;> simp [maxByNewer]

/-- Unfolding lemma for lookup_default when a local source reported an
installed version. -/
theorem lookup_default_installed_eq (package : String) (srcs : List Source)
    (use_cache : Bool) (now : Nat) (st : CacheState) (v : String) (s : Source)
    (hinst : installedResult package srcs = some (v, s)) :
    lookup_default package srcs use_cache now st =
      match maxByNewer (sameEcoNewer package srcs use_cache now st v s.ecosystem) with
      | some (w, t) =>
        (PackageResult.outdated package (VersionInfo.new v s) (VersionInfo.new w t)
          (alsoFoundInOf package srcs use_cache now st s.ecosystem),
         (queryAll (srcs.filter fun u => !u.isLocal) package use_cache now st).2)
      | none =>
        (PackageResult.up_to_date package (VersionInfo.new v s)
          (alsoFoundInOf package srcs use_cache now st s.ecosystem),
         (queryAll (srcs.filter fun u => !u.isLocal) package use_cache now st).2) := by
  unfold lookup_default
  rw [hinst]
  rfl

/-- Unfolding lemma for lookup_default when no local source reported an
installed version. -/
theorem lookup_default_none_eq (package : String) (srcs : List Source)
    (use_cache : Bool) (now : Nat) (st : CacheState)
    (hinst : installedResult package srcs = none) :
    lookup_default package srcs use_cache now st =
      (if (queryAll (srcs.filter fun u => !u.isLocal) package use_cache now st).1.isEmpty then
        (PackageResult.not_found package,
         (queryAll (srcs.filter fun u => !u.isLocal) package use_cache now st).2)
       else
        (PackageResult.not_installed package
          ((queryAll (srcs.filter fun u => !u.isLocal) package use_cache now st).1.map
            fun p => VersionInfo.new p.1 p.2),
         (queryAll (srcs.filter fun u => !u.isLocal) package use_cache now st).2)) := by
  unfold lookup_default
  rw [hinst]

/-- Membership in the candidate list fed to max_by. -/
theorem mem_sameEcoNewer {package : String} {srcs : List Source}
    {use_cache : Bool} {now : Nat} {st : CacheState} {v : String}
    {eco : Ecosystem} {p : String × Source} :
    p ∈ sameEcoNewer package srcs use_cache now st v eco ↔
      p ∈ registryResults package srcs use_cache now st ∧
        p.2.ecosystem = eco ∧ is_newer v p.1 = true := by
  unfold sameEcoNewer
  simp only [List.mem_filter, beq_iff_eq]
  tauto

/-- Membership in the also_found_in list. -/
theorem mem_alsoFoundInOf {package : String} {srcs : List Source}
    {use_cache : Bool} {now : Nat} {st : CacheState} {eco : Ecosystem}
    {n : String} :
    n ∈ alsoFoundInOf package srcs use_cache now st eco ↔
      ∃ p ∈ registryResults package srcs use_cache now st,
        p.2.name = n ∧ ¬ p.2.ecosystem = eco := by
  unfold alsoFoundInOf
  simp only [List.mem_map, List.mem_filter, Bool.not_eq_true', beq_eq_false_iff_ne]
  constructor
  · rintro ⟨p, ⟨hp, hne⟩, hn⟩
    exact ⟨p, hp, hn, hne⟩
  · rintro ⟨p, hp, hn, hne⟩
    exact ⟨p, ⟨hp, hne⟩, hn⟩

/-- Splitting a list every one of whose characters matches the separator
predicate yields only empty pieces. -/
theorem splitOnPred_all_sep {p : Char → Bool} {l : List Char}
    (h : ∀ c ∈ l, p c = true) :
    splitOnPred p l = List.replicate (l.length + 1) [] := by
  induction l with
  | nil => rfl
  | cons c cs ih =>
    have hc : p c = true := h c (by simp)
    rw [splitOnPred, if_pos hc, ih fun d hd => h d (by simp [hd])]
    simp [List.replicate_succ]

/-- A string without ASCII digits has no numeric components. -/
theorem versionComponents_eq_nil {s : String}
    (h : s.data.all (fun c => !c.isDigit) = true) : versionComponents s = [] := by
  unfold versionComponents
  rw [List.all_eq_true] at h
  rw [splitOnPred_all_sep (fun c hc => h c hc)]
  have : ∀ n : Nat, (List.replicate n ([] : List Char)).filterMap parseU64 = [] := by
    intro n
    induction n with
    | zero => rfl
    | succ k ih => simp [List.replicate_succ, List.filterMap_cons, parseU64, ih]
  exact this _

/-- Claim C1, as stated by the spec, is false on the code: for installed
"1" and candidate "1.0.5" the spec's comparison (missing components read as
0 everywhere) says newer, but is_newer compares the earlier indices as
options, so the missing second component of "1" does not match the present
0 of "1.0.5" and the code answers false. -/
theorem c1_counterexample :
    is_newer "1" "1.0.5" = false ∧ isNewerClaimed "1" "1.0.5" = true :=
  ⟨by decide, by decide⟩

/-- Claim C1 (amended): is_newer installed candidate is true iff some index
i below the longer component count has the candidate's component (a missing
one read as 0) strictly above the installed's, while at every earlier index
the two sequences agree as optional values, so a missing earlier component
matches only a missing one, not a present 0. -/
theorem c1_amended (installed latest : String) :
    is_newer installed latest = true ↔
      ∃ i, i < max (versionComponents installed).length
            (versionComponents latest).length ∧
        (versionComponents installed).getD i 0 <
          (versionComponents latest).getD i 0 ∧
        ∀ j, j < i →
          (versionComponents installed)[j]? = (versionComponents latest)[j]? :=
  componentsNewer_iff _ _

/-- Claim C4: the comparator relation of is_newer is transitive; this holds
for all input strings, in particular for well-formed dot-separated numeric
versions. -/
theorem c4_transitive (a b c : String) (hab : is_newer a b = true)
    (hbc : is_newer b c = true) : is_newer a c = true :=
  is_newer_trans hab hbc

theorem c4_transitive_witness :
    is_newer "1.2.3" "1.4.0" = true ∧ is_newer "1.4.0" "2.0.0" = true ∧
      is_newer "1.2.3" "2.0.0" = true :=
  ⟨by decide, by decide,
    c4_transitive "1.2.3" "1.4.0" "2.0.0" (by decide) (by decide)⟩

/-- Claim C8: is_newer is a total boolean function of its two string
arguments (the embedding is a total function, so no input can make it
fail), and when neither input holds an ASCII digit it returns false. -/
theorem c8_total_and_false_on_no_digits (a b : String) :
    (is_newer a b = false ∨ is_newer a b = true) ∧
      (a.data.all (fun c => !c.isDigit) = true →
        b.data.all (fun c => !c.isDigit) = true → is_newer a b = false) := by
  constructor
  · cases h : is_newer a b
    · exact Or.inl rfl
    · exact Or.inr rfl
  · intro ha hb
    unfold is_newer
    rw [versionComponents_eq_nil ha, versionComponents_eq_nil hb]
    rfl

theorem c8_witness :
    (is_newer "" "" = false ∨ is_newer "" "" = true) ∧
      (is_newer "" "" = false) ∧
      (is_newer "héllo…" "nö-dïgits" = false ∨
        is_newer "héllo…" "nö-dïgits" = true) ∧
      is_newer "héllo…" "nö-dïgits" = false :=
  ⟨(c8_total_and_false_on_no_digits "" "").1,
    (c8_total_and_false_on_no_digits "" "").2 (by decide) (by decide),
    (c8_total_and_false_on_no_digits "héllo…" "nö-dïgits").1,
    (c8_total_and_false_on_no_digits "héllo…" "nö-dïgits").2 (by decide)
      (by decide)⟩

/-- Claim C5: a set followed, before the 3600 second TTL has elapsed, by a
get of the same source and package returns the stored version; and a get
that reads an entry whose age now minus stored timestamp is at least 3600
seconds deletes the persisted entry and returns nothing. Times are u64
second counts. -/
theorem c5_cache_roundtrip :
    (∀ (st : CacheState) (now now' : Nat) (src pkg v : String),
      now ≤ now' → now' < U64MOD → now' - now < DEFAULT_TTL_SECS →
      (cache_get (cache_set st now src pkg v) now' src pkg).1 = some v) ∧
    (∀ (st : CacheState) (now : Nat) (src pkg : String) (e : CacheEntry),
      storeRead st (cacheKey src pkg) = some e →
      e.timestamp ≤ now → now < U64MOD →
      DEFAULT_TTL_SECS ≤ now - e.timestamp →
      cache_get st now src pkg = (none, storeRemove st (cacheKey src pkg)) ∧
        storeRead (cache_get st now src pkg).2 (cacheKey src pkg) = none) := by
  constructor
  · intro st now now' src pkg v h1 h2 h3
    unfold cache_get cache_set
    rw [storeRead_write]
    have hfresh : u64Sub now' now < DEFAULT_TTL_SECS := by
      unfold u64Sub U64MOD DEFAULT_TTL_SECS at *
      omega
    simp [hfresh]
  · intro st now src pkg e he h1 h2 h3
    have hexp : ¬ u64Sub now e.timestamp < DEFAULT_TTL_SECS := by
      unfold u64Sub U64MOD DEFAULT_TTL_SECS at *
      omega
    refine ⟨?_, ?_⟩
    · unfold cache_get
      rw [he]
      simp [hexp]
    · unfold cache_get
      rw [he]
      simp [hexp, storeRead_remove]

theorem c5_cache_roundtrip_witness :
    (cache_get (cache_set [] 100 "npm" "express" "1.2.3") 100 "npm"
        "express").1 = some "1.2.3" ∧
      (cache_get [(cacheKey "npm" "express", ⟨"9.9.9", 0⟩)] 5000 "npm"
          "express" =
        (none, storeRemove [(cacheKey "npm" "express", ⟨"9.9.9", 0⟩)]
          (cacheKey "npm" "express")) ∧
        storeRead (cache_get [(cacheKey "npm" "express", ⟨"9.9.9", 0⟩)] 5000
          "npm" "express").2 (cacheKey "npm" "express") = none) :=
  ⟨c5_cache_roundtrip.1 [] 100 100 "npm" "express" "1.2.3" (by decide)
      (by decide) (by decide),
    c5_cache_roundtrip.2 [(cacheKey "npm" "express", ⟨"9.9.9", 0⟩)] 5000
      "npm" "express" ⟨"9.9.9", 0⟩ (by decide) (by decide) (by decide)
      (by decide)⟩

/-- Claim C9: the cache key is not injective in the package name: distinct
packages of one source can sanitize to the same file name, so a get can
return a version stored for a different package. -/
theorem c9_cache_key_collision :
    ∃ (src p1 p2 v : String), p1 ≠ p2 ∧ sanitize p1 = sanitize p2 ∧
      (cache_get (cache_set [] 0 src p1 v) 0 src p2).1 = some v :=
  ⟨"npm", "a.b", "a_b", "1.0.0", by decide, by decide, by decide⟩

/-- Claim C10: get computes the entry's age with wrapping u64 subtraction,
so a future-dated entry whose timestamp exceeds now by at most two to the
64 minus 3600 wraps to an age of at least the TTL: the entry is deleted and
nothing is returned. -/
theorem c10_future_entry_expired (st : CacheState) (now : Nat)
    (src pkg : String) (e : CacheEntry)
    (he : storeRead st (cacheKey src pkg) = some e)
    (h1 : now < e.timestamp) (_hts : e.timestamp < U64MOD)
    (h3 : e.timestamp - now ≤ U64MOD - DEFAULT_TTL_SECS) :
    (cache_get st now src pkg).1 = none ∧
      storeRead (cache_get st now src pkg).2 (cacheKey src pkg) = none := by
  have hexp : ¬ u64Sub now e.timestamp < DEFAULT_TTL_SECS := by
    unfold u64Sub U64MOD DEFAULT_TTL_SECS at *
    omega
  constructor
  · unfold cache_get
    rw [he]
    simp [hexp]
  · unfold cache_get
    rw [he]
    simp [hexp, storeRead_remove]

theorem c10_future_entry_expired_witness :
    (cache_get [(cacheKey "npm" "left-pad", ⟨"9.9.9", 1000⟩)] 5 "npm"
        "left-pad").1 = none ∧
      storeRead (cache_get [(cacheKey "npm" "left-pad", ⟨"9.9.9", 1000⟩)] 5
        "npm" "left-pad").2 (cacheKey "npm" "left-pad") = none :=
  c10_future_entry_expired [(cacheKey "npm" "left-pad", ⟨"9.9.9", 1000⟩)] 5
    "npm" "left-pad" ⟨"9.9.9", 1000⟩ (by decide) (by decide) (by decide)
    (by decide)

/-- Claim C7: query_source on a local source returns exactly the source's
own answer and leaves the cache store untouched, for both settings of the
use_cache flag. -/
theorem c7_local_source_skips_cache (s : Source) (package : String)
    (use_cache : Bool) (now : Nat) (st : CacheState) (h : s.isLocal = true) :
    query_source s package use_cache now st = (s.getVersion package, st) := by
  unfold query_source
  rw [h]
  rfl

theorem c7_local_source_skips_cache_witness :
    (localSys "1.0.0").isLocal = true ∧
      query_source (localSys "1.0.0") "jq" true 77
          [(cacheKey "path" "jq", ⟨"0.0.1", 77⟩)] =
        (some "1.0.0", [(cacheKey "path" "jq", ⟨"0.0.1", 77⟩)]) :=
  ⟨rfl, c7_local_source_skips_cache (localSys "1.0.0") "jq" true 77
    [(cacheKey "path" "jq", ⟨"0.0.1", 77⟩)] rfl⟩

/-- Claim C2: in Default mode, when a local source reports an installed
version, the candidates are restricted to registry results sharing the
installed source's ecosystem; if one such candidate is strictly newer than
the installed version, the result is the Outdated record whose latest is a
candidate that no strictly-newer same-ecosystem candidate improves on, and
otherwise the result is the UpToDate record with the installed info
repeated as both installed and latest. -/
theorem c2_default_policy (package : String) (srcs : List Source)
    (use_cache : Bool) (now : Nat) (st : CacheState) (v : String) (s : Source)
    (hinst : installedResult package srcs = some (v, s)) :
    ((∃ p ∈ registryResults package srcs use_cache now st,
        p.2.ecosystem = s.ecosystem ∧ is_newer v p.1 = true) →
      ∃ p ∈ registryResults package srcs use_cache now st,
        p.2.ecosystem = s.ecosystem ∧ is_newer v p.1 = true ∧
        (lookup_default package srcs use_cache now st).1 =
          PackageResult.outdated package (VersionInfo.new v s)
            (VersionInfo.new p.1 p.2)
            (alsoFoundInOf package srcs use_cache now st s.ecosystem) ∧
        ∀ q ∈ registryResults package srcs use_cache now st,
          q.2.ecosystem = s.ecosystem → is_newer v q.1 = true →
            is_newer p.1 q.1 = false) ∧
    ((¬ ∃ p ∈ registryResults package srcs use_cache now st,
        p.2.ecosystem = s.ecosystem ∧ is_newer v p.1 = true) →
      (lookup_default package srcs use_cache now st).1 =
        PackageResult.up_to_date package (VersionInfo.new v s)
          (alsoFoundInOf package srcs use_cache now st s.ecosystem)) := by
  constructor
  · rintro ⟨p, hp, heco, hnew⟩
    have hpm : p ∈ sameEcoNewer package srcs use_cache now st v s.ecosystem :=
      mem_sameEcoNewer.mpr ⟨hp, heco, hnew⟩
    cases hmx : maxByNewer (sameEcoNewer package srcs use_cache now st v s.ecosystem) with
    | none =>
      rw [maxByNewer_eq_none] at hmx
      rw [hmx] at hpm
      exact absurd hpm (List.not_mem_nil p)
    | some m =>
      obtain ⟨mv, ms⟩ := m
      obtain ⟨hmem, hmax⟩ := maxByNewer_spec hmx
      rw [mem_sameEcoNewer] at hmem
      refine ⟨(mv, ms), hmem.1, hmem.2.1, hmem.2.2, ?_, ?_⟩
      · rw [lookup_default_installed_eq package srcs use_cache now st v s hinst,
          hmx]
      · intro q hq hqe hqn
        exact hmax q (mem_sameEcoNewer.mpr ⟨hq, hqe, hqn⟩)
  · intro hno
    have hnil : sameEcoNewer package srcs use_cache now st v s.ecosystem = [] := by
      rw [List.eq_nil_iff_forall_not_mem]
      intro p hp
      rw [mem_sameEcoNewer] at hp
      exact hno ⟨p, hp.1, hp.2.1, hp.2.2⟩
    rw [lookup_default_installed_eq package srcs use_cache now st v s hinst,
      maxByNewer_eq_none.mpr hnil]

theorem c2_default_policy_witness :
    ∃ p ∈ registryResults "docker" [localSys "24.0.0", regSys "25.0.0"] false 0 [],
      p.2.ecosystem = (localSys "24.0.0").ecosystem ∧
      is_newer "24.0.0" p.1 = true ∧
      (lookup_default "docker" [localSys "24.0.0", regSys "25.0.0"] false 0 []).1 =
        PackageResult.outdated "docker"
          (VersionInfo.new "24.0.0" (localSys "24.0.0"))
          (VersionInfo.new p.1 p.2)
          (alsoFoundInOf "docker" [localSys "24.0.0", regSys "25.0.0"] false 0 []
            (localSys "24.0.0").ecosystem) ∧
      ∀ q ∈ registryResults "docker" [localSys "24.0.0", regSys "25.0.0"] false 0 [],
        q.2.ecosystem = (localSys "24.0.0").ecosystem →
          is_newer "24.0.0" q.1 = true → is_newer p.1 q.1 = false :=
  (c2_default_policy "docker" [localSys "24.0.0", regSys "25.0.0"] false 0 []
      "24.0.0" (localSys "24.0.0") rfl).1
    ⟨("25.0.0", regSys "25.0.0"), List.mem_cons_self _ _, rfl, by decide⟩

/-- Claim C6: in Default mode with an installed version, also_found_in
holds exactly the names of registry sources that answered and belong to a
different ecosystem than the installed source (same-ecosystem sources never
appear there), and an Outdated verdict can only come from a same-ecosystem
candidate strictly newer than the installed version, never from a
different-ecosystem one. -/
theorem c6_also_found_in_cross_eco (package : String) (srcs : List Source)
    (use_cache : Bool) (now : Nat) (st : CacheState) (v : String) (s : Source)
    (hinst : installedResult package srcs = some (v, s)) :
    (∀ n : String,
      n ∈ (lookup_default package srcs use_cache now st).1.also_found_in ↔
        ∃ p ∈ registryResults package srcs use_cache now st,
          p.2.name = n ∧ ¬ p.2.ecosystem = s.ecosystem) ∧
    ((lookup_default package srcs use_cache now st).1.status = Status.outdated →
      ∃ p ∈ registryResults package srcs use_cache now st,
        p.2.ecosystem = s.ecosystem ∧ is_newer v p.1 = true) := by
  rw [lookup_default_installed_eq package srcs use_cache now st v s hinst]
  cases hmx : maxByNewer (sameEcoNewer package srcs use_cache now st v s.ecosystem) with
  | none =>
    refine ⟨fun n => mem_alsoFoundInOf, fun h => ?_⟩
    simp [PackageResult.up_to_date] at h
  | some m =>
    obtain ⟨w, t⟩ := m
    refine ⟨fun n => mem_alsoFoundInOf, fun _ => ?_⟩
    obtain ⟨hmem, -⟩ := maxByNewer_spec hmx
    rw [mem_sameEcoNewer] at hmem
    exact ⟨(w, t), hmem.1, hmem.2.1, hmem.2.2⟩

theorem c6_also_found_in_cross_eco_witness :
    (lookup_default "mcs" [localSys "0.7.0", regNpm "2.0.0"] false 0
        []).1.status = Status.upToDate ∧
      (lookup_default "mcs" [localSys "0.7.0", regNpm "2.0.0"] false 0
        []).1.also_found_in = ["npm"] ∧
      ("npm" ∈ (lookup_default "mcs" [localSys "0.7.0", regNpm "2.0.0"] false 0
          []).1.also_found_in ↔
        ∃ p ∈ registryResults "mcs" [localSys "0.7.0", regNpm "2.0.0"] false 0 [],
          p.2.name = "npm" ∧ ¬ p.2.ecosystem = (localSys "0.7.0").ecosystem) :=
  ⟨by decide, by decide,
    (c6_also_found_in_cross_eco "mcs" [localSys "0.7.0", regNpm "2.0.0"] false 0
      [] "0.7.0" (localSys "0.7.0") rfl).1 "npm"⟩

/-- Every lookup result is one of the five constructor shapes, with a
non-empty available list for not_installed and all_sources. -/
theorem lookup_shape (package : String) (srcs : List Source) (mode : LookupMode)
    (use_cache : Bool) (now : Nat) (st : CacheState) :
    (∃ info afi, (lookup package srcs mode use_cache now st).1 =
      PackageResult.up_to_date package info afi) ∨
    (∃ inst lat afi, (lookup package srcs mode use_cache now st).1 =
      PackageResult.outdated package inst lat afi) ∨
    ((lookup package srcs mode use_cache now st).1 =
      PackageResult.not_found package) ∨
    (∃ avail, avail ≠ [] ∧ (lookup package srcs mode use_cache now st).1 =
      PackageResult.not_installed package avail) ∨
    (∃ avail, avail ≠ [] ∧ (lookup package srcs mode use_cache now st).1 =
      PackageResult.all_sources package avail) := by
  cases mode with
  | all =>
    cases hql : (queryAll srcs package use_cache now st).1 with
    | nil =>
      refine Or.inr (Or.inr (Or.inl ?_))
      show (PackageResult.all_sources package
        ((queryAll srcs package use_cache now st).1.map
          fun p => VersionInfo.new p.1 p.2)) = _
      rw [hql]
      rfl
    | cons a as =>
      refine Or.inr (Or.inr (Or.inr (Or.inr ⟨_, ?_, rfl⟩)))
      rw [hql]
      simp
  | explicitMode =>
    cases hf : (findFirstQuery srcs package use_cache now st).1 with
    | some info =>
      refine Or.inl ⟨info, [], ?_⟩
      show (match (findFirstQuery srcs package use_cache now st).1 with
        | some i => (PackageResult.up_to_date package i [],
            (findFirstQuery srcs package use_cache now st).2)
        | none => (PackageResult.not_found package,
            (findFirstQuery srcs package use_cache now st).2)).1 = _
      rw [hf]
    | none =>
      refine Or.inr (Or.inr (Or.inl ?_))
      show (match (findFirstQuery srcs package use_cache now st).1 with
        | some i => (PackageResult.up_to_date package i [],
            (findFirstQuery srcs package use_cache now st).2)
        | none => (PackageResult.not_found package,
            (findFirstQuery srcs package use_cache now st).2)).1 = _
      rw [hf]
  | defaultMode =>
    have hl : lookup package srcs LookupMode.defaultMode use_cache now st =
        lookup_default package srcs use_cache now st := rfl
    rw [hl]
    cases hi : installedResult package srcs with
    | some p =>
      obtain ⟨v, s⟩ := p
      rw [lookup_default_installed_eq package srcs use_cache now st v s hi]
      cases hmx : maxByNewer (sameEcoNewer package srcs use_cache now st v
          s.ecosystem) with
      | some m =>
        obtain ⟨w, t⟩ := m
        exact Or.inr (Or.inl ⟨_, _, _, rfl⟩)
      | none =>
        exact Or.inl ⟨_, _, rfl⟩
    | none =>
      rw [lookup_default_none_eq package srcs use_cache now st hi]
      cases hql : (queryAll (srcs.filter fun u => !u.isLocal) package use_cache
          now st).1 with
      | nil =>
        exact Or.inr (Or.inr (Or.inl rfl))
      | cons a as =>
        refine Or.inr (Or.inr (Or.inr (Or.inl ⟨_, ?_, rfl⟩)))
        simp

/-- Claim C3 (amended): which optional fields are populated is determined
by the status, not the other way round: an Outdated result has installed
and latest populated and available empty; an UpToDate result either has
installed and latest populated with available empty (installed case) or
only a non-empty available (all-sources case); a NotInstalled result has
latest populated, installed missing and available non-empty; a NotFound
result has nothing populated. In particular no result has status Outdated
with a missing latest; but status is not a pure function of the footprint,
because UpToDate and Outdated results can agree on it. -/
theorem c3_amended (package : String) (srcs : List Source) (mode : LookupMode)
    (use_cache : Bool) (now : Nat) (st : CacheState) :
    ((lookup package srcs mode use_cache now st).1.status = Status.outdated →
      (lookup package srcs mode use_cache now st).1.installed ≠ none ∧
      (lookup package srcs mode use_cache now st).1.latest ≠ none ∧
      (lookup package srcs mode use_cache now st).1.available = []) ∧
    ((lookup package srcs mode use_cache now st).1.status = Status.upToDate →
      ((lookup package srcs mode use_cache now st).1.installed ≠ none ∧
        (lookup package srcs mode use_cache now st).1.latest ≠ none ∧
        (lookup package srcs mode use_cache now st).1.available = []) ∨
      ((lookup package srcs mode use_cache now st).1.installed = none ∧
        (lookup package srcs mode use_cache now st).1.latest = none ∧
        (lookup package srcs mode use_cache now st).1.available ≠ [])) ∧
    ((lookup package srcs mode use_cache now st).1.status = Status.notInstalled →
      (lookup package srcs mode use_cache now st).1.installed = none ∧
      (lookup package srcs mode use_cache now st).1.latest ≠ none ∧
      (lookup package srcs mode use_cache now st).1.available ≠ []) ∧
    ((lookup package srcs mode use_cache now st).1.status = Status.notFound →
      (lookup package srcs mode use_cache now st).1.installed = none ∧
      (lookup package srcs mode use_cache now st).1.latest = none ∧
      (lookup package srcs mode use_cache now st).1.available = []) := by
  rcases lookup_shape package srcs mode use_cache now st with
    ⟨info, afi, hr⟩ | ⟨inst, lat, afi, hr⟩ | hr | ⟨avail, hav, hr⟩ | ⟨avail, hav, hr⟩
  · rw [hr]
    simp [PackageResult.up_to_date]
  · rw [hr]
    simp [PackageResult.outdated]
  · rw [hr]
    simp [PackageResult.not_found]
  · rw [hr]
    cases avail with
    | nil => exact absurd rfl hav
    | cons a as => simp [PackageResult.not_installed]
  · rw [hr]
    cases avail with
    | nil => exact absurd rfl hav
    | cons a as => simp [PackageResult.all_sources]

theorem c3_amended_witness :
    (lookup "docker" [localSys "1.0.0", regSys "2.0.0"] LookupMode.defaultMode
        false 0 []).1.installed ≠ none ∧
      (lookup "docker" [localSys "1.0.0", regSys "2.0.0"] LookupMode.defaultMode
        false 0 []).1.latest ≠ none ∧
      (lookup "docker" [localSys "1.0.0", regSys "2.0.0"] LookupMode.defaultMode
        false 0 []).1.available = [] :=
  (c3_amended "docker" [localSys "1.0.0", regSys "2.0.0"]
    LookupMode.defaultMode false 0 []).1 (by decide)

/-- Claim C3, as stated, is false on the code: an Outdated and an UpToDate
lookup result can agree on which optional fields are populated (installed
and latest present, available empty) while their statuses differ, so
status is not a pure function of the populated-fields footprint. -/
theorem c3_counterexample :
    fieldFootprint (lookup "docker" [localSys "1.0.0", regSys "2.0.0"]
        LookupMode.defaultMode false 0 []).1 =
      fieldFootprint (lookup "docker" [localSys "1.0.0"]
        LookupMode.defaultMode false 0 []).1 ∧
    (lookup "docker" [localSys "1.0.0", regSys "2.0.0"]
        LookupMode.defaultMode false 0 []).1.status = Status.outdated ∧
    (lookup "docker" [localSys "1.0.0"] LookupMode.defaultMode false 0
        []).1.status = Status.upToDate :=
  ⟨by decide, by decide, by decide⟩

end Latest
